import Mathlib

/-!
Verification of the batched log-persistence pipeline of this repository.

The definitions below are a shallow embedding of the TypeScript sources:
* `SupabaseTransport` (transformLogInfo, isValidUUID, addToBatch, flush,
  retryIndividualInserts) from the Winston transport module;
* the `logs` table column constraints from `src/lib/db/schema.ts`;
* the `DELETE /api/logs` handler from the logs API route.

JavaScript runtime behaviour that the code relies on is made explicit:
* string truthiness (`undefined` and `""` are falsy) is `truthy`;
* `a || b` on option-of-string values is `orDefault`;
* `new Date(s)` parsing is an arbitrary function `parseDate : String → JsDate`
  passed as a parameter (a `JsDate` is either a valid instant or the JS
  "Invalid Date" value);
* `JSON.parse(JSON.stringify(v))` is `jsonRoundTrip`, which fails (throws)
  on BigInt values and on a top-level `undefined`, drops object entries whose
  value is `undefined`, and replaces `undefined` array elements by `null`.
-/

/-- A JavaScript `Date` value: either a valid instant (milliseconds since
epoch) or the "Invalid Date" value produced by parsing garbage. -/
inductive JsDate where
  | valid (ms : Int)
  | invalid
deriving DecidableEq

/-- `true` exactly for dates whose `getTime()` is not `NaN`. -/
def JsDate.isValid : JsDate → Bool
  | .valid _ => true
  | .invalid => false

/-- A JavaScript value as far as `JSON.stringify`/`JSON.parse` care:
JSON primitives, arrays, objects, plus the non-JSON values `undefined`
(also standing for functions and symbols, which stringify identically)
and BigInt (which makes `JSON.stringify` throw). -/
inductive JSValue where
  | jnull
  | jbool (b : Bool)
  | jnum (n : Int)
  | jstr (s : String)
  | jarr (xs : List JSValue)
  | jobj (fields : List (String × JSValue))
  | jundef
  | jbigint (n : Int)

mutual
/-- `JSON.parse(JSON.stringify(v))`: the round-trip structural copy the
transport attempts on the metadata object. `.error ()` models the throw. -/
def jsonRoundTrip : JSValue → Except Unit JSValue
  | .jnull => .ok .jnull
  | .jbool b => .ok (.jbool b)
  | .jnum n => .ok (.jnum n)
  | .jstr s => .ok (.jstr s)
  | .jundef => .error ()
  | .jbigint _ => .error ()
  | .jarr xs =>
    match rtArr xs with
    | .ok ys => .ok (.jarr ys)
    | .error e => .error e
  | .jobj fs =>
    match rtObj fs with
    | .ok gs => .ok (.jobj gs)
    | .error e => .error e

/-- Round trip of the elements of an array: `undefined` becomes `null`. -/
def rtArr : List JSValue → Except Unit (List JSValue)
  | [] => .ok []
  | x :: xs =>
    match x with
    | .jundef =>
      match rtArr xs with
      | .ok ys => .ok (.jnull :: ys)
      | .error e => .error e
    | x =>
      match jsonRoundTrip x with
      | .ok y =>
        match rtArr xs with
        | .ok ys => .ok (y :: ys)
        | .error e => .error e
      | .error e => .error e

/-- Round trip of the entries of an object: entries whose value is
`undefined` are dropped. -/
def rtObj : List (String × JSValue) → Except Unit (List (String × JSValue))
  | [] => .ok []
  | (k, v) :: fs =>
    match v with
    | .jundef => rtObj fs
    | v =>
      match jsonRoundTrip v with
      | .ok w =>
        match rtObj fs with
        | .ok ws => .ok ((k, w) :: ws)
        | .error e => .error e
      | .error e => .error e
end

/-- The raw Winston log info object handed to `SupabaseTransport.log`.
The seventeen named fields are the ones the transport destructures; `meta`
holds the remaining enumerable keys collected by the rest-spread. `none`
models a missing (`undefined`) field. -/
structure LogInfo where
  level : Option String := none
  message : Option String := none
  timestamp : Option String := none
  requestId : Option String := none
  userId : Option String := none
  sessionId : Option String := none
  ipAddress : Option String := none
  userAgent : Option String := none
  method : Option String := none
  url : Option String := none
  statusCode : Option String := none
  responseTime : Option String := none
  stack : Option String := none
  errorCode : Option String := none
  environment : Option String := none
  service : Option String := none
  version : Option String := none
  meta : List (String × JSValue) := []

/-- The database record shape (`InsertLog` of `schema.ts`) as the transport
builds it: `level`, `message`, `timestamp`, `environment` and `service` are
always assigned; every other column is assigned only conditionally. -/
structure InsertLog where
  level : String
  message : String
  timestamp : JsDate
  environment : String
  service : String
  meta : Option JSValue := none
  requestId : Option String := none
  userId : Option String := none
  sessionId : Option String := none
  ipAddress : Option String := none
  userAgent : Option String := none
  method : Option String := none
  url : Option String := none
  statusCode : Option String := none
  responseTime : Option String := none
  stack : Option String := none
  errorCode : Option String := none
  version : Option String := none

/-- JavaScript truthiness of a possibly-missing string: `undefined` and the
empty string are falsy. -/
def truthy : Option String → Bool
  | none => false
  | some s => !(s == "")

/-- JavaScript `a || b` for a possibly-missing string `a` with fallback `b`. -/
def orDefault (a : Option String) (b : String) : String :=
  match a with
  | some s => if s == "" then b else s
  | none => b

/-- The guarded assignment `if (v && String(v).length <= limit) rec.f = v`
used for the length-constrained varchar columns. -/
def keepIfLen (v : Option String) (limit : Nat) : Option String :=
  match v with
  | some s => if s ≠ "" ∧ s.length ≤ limit then some s else none
  | none => none

/-- The guarded assignment `if (v) rec.f = v` used for the unbounded text
columns (`ipAddress`, `userAgent`, `url`, `stack`). -/
def keepIfTruthy (v : Option String) : Option String :=
  match v with
  | some s => if s == "" then none else some s
  | none => none

/-- A hexadecimal digit, case-insensitive (`[0-9a-f]` under the `i` flag). -/
def isHexChar (c : Char) : Bool :=
  (('0' ≤ c) && (c ≤ '9')) || (('a' ≤ c) && (c ≤ 'f')) || (('A' ≤ c) && (c ≤ 'F'))

/-- One position of the UUID regular expression
`/^[0-9a-f]\x7b8\x7d-[0-9a-f]\x7b4\x7d-[1-5][0-9a-f]\x7b3\x7d-[89ab][0-9a-f]\x7b3\x7d-[0-9a-f]\x7b12\x7d$/i`. -/
inductive UuidSlot where
  | hex
  | dash
  | ver
  | varc
deriving DecidableEq

/-- The 36 character classes of the UUID pattern, in order. -/
def uuidSlots : List UuidSlot :=
  List.replicate 8 .hex ++ [.dash] ++ List.replicate 4 .hex ++ [.dash] ++
  [.ver] ++ List.replicate 3 .hex ++ [.dash] ++
  [.varc] ++ List.replicate 3 .hex ++ [.dash] ++ List.replicate 12 .hex

/-- Whether a character matches one character class of the pattern
(case-insensitive, as the regex carries the `i` flag). -/
def slotMatches : UuidSlot → Char → Bool
  | .hex, c => isHexChar c
  | .dash, c => c == '-'
  | .ver, c => ('1' ≤ c) && (c ≤ '5')
  | .varc, c => c == '8' || c == '9' || c == 'a' || c == 'b' || c == 'A' || c == 'B'

/-- `SupabaseTransport.isValidUUID`: full-string match of the strict
8-4-4-4-12 UUID pattern with version digit `1`-`5` and variant `[89ab]`. -/
def isValidUUID (s : String) : Bool :=
  s.data.length == uuidSlots.length &&
  (List.zipWith slotMatches uuidSlots s.data).all id

/-- `timestamp ? new Date(timestamp) : now` — a truthy supplied timestamp
string is parsed; a missing or empty one yields the record-creation time. -/
def tsField (parseDate : String → JsDate) (now : Int) : Option String → JsDate
  | some s => if s == "" then JsDate.valid now else parseDate s
  | none => JsDate.valid now

/-- The metadata assignment: only when the rest-spread object is non-empty,
try the JSON round trip; on failure warn locally and leave the column
unset. -/
def metaField (meta : List (String × JSValue)) : Option JSValue :=
  if meta.isEmpty then none
  else
    match jsonRoundTrip (.jobj meta) with
    | .ok m => some m
    | .error _ => none

/-- The guarded assignment `if (v && this.isValidUUID(v)) rec.f = v` used
for `requestId` and `userId`. -/
def uuidField (v : Option String) : Option String :=
  match v with
  | some s => if s ≠ "" ∧ isValidUUID s = true then some s else none
  | none => none

/-- `SupabaseTransport.transformLogInfo`. Throws (`.error`) exactly when
`!level || !message`; otherwise builds the record with the conditional
field assignments of the source. `parseDate` stands for `new Date(·)`,
`now` for the `new Date()` taken at entry, `nodeEnv` for
`process.env.NODE_ENV`. -/
def transformLogInfo (parseDate : String → JsDate) (now : Int)
    (nodeEnv : Option String) (info : LogInfo) : Except String InsertLog :=
  if truthy info.level && truthy info.message then
    .ok {
      level := info.level.getD ""
      message := info.message.getD ""
      timestamp := tsField parseDate now info.timestamp
      environment := orDefault info.environment (orDefault nodeEnv "development")
      service := orDefault info.service "nextjs-app"
      meta := metaField info.meta
      requestId := uuidField info.requestId
      userId := uuidField info.userId
      sessionId := keepIfLen info.sessionId 255
      ipAddress := keepIfTruthy info.ipAddress
      userAgent := keepIfTruthy info.userAgent
      method := keepIfLen info.method 10
      url := keepIfTruthy info.url
      statusCode := keepIfLen info.statusCode 5
      responseTime := keepIfLen info.responseTime 20
      stack := keepIfTruthy info.stack
      errorCode := keepIfLen info.errorCode 50
      version := keepIfLen info.version 50 }
  else .error "Log level and message are required"

/-- `true` exactly on `.ok` results. -/
def exceptOk {ε α : Type} : Except ε α → Bool
  | .ok _ => true
  | .error _ => false

/-- The transport's mutable state, restricted to what the buffering logic
touches: the in-memory batch, plus (as the observation of `flush`) the list
of batches that have been drained and handed to the flush executor, in
order. -/
structure TransportState where
  logBatch : List InsertLog := []
  flushCalls : List (List InsertLog) := []

/-- The synchronous prefix of `SupabaseTransport.flush`: if the batch is
empty return at once; otherwise copy the batch, reset it, and hand the copy
to the executor (recorded in `flushCalls`). -/
def flushDrain (st : TransportState) : TransportState :=
  if st.logBatch.isEmpty then st
  else { logBatch := [], flushCalls := st.flushCalls ++ [st.logBatch] }

/-- `SupabaseTransport.addToBatch`: push the record, then flush if the
batch is full (`length >= batchSize`). -/
def addToBatch (batchSize : Nat) (rec : InsertLog) (st : TransportState) :
    TransportState :=
  let pushed : TransportState := { st with logBatch := st.logBatch ++ [rec] }
  if batchSize ≤ pushed.logBatch.length then flushDrain pushed else pushed

/-- `opts.batchSize || 10` of the constructor: `undefined` and the falsy
`0` both fall back to the default `10`. -/
def resolveBatchSize (opt : Option Nat) : Nat :=
  match opt with
  | some n => if n = 0 then 10 else n
  | none => 10

/-- `SupabaseTransport.log` as a state transformer: transform the raw info;
on success add to the batch, on a validation throw leave the state alone
and emit an `error` event (the returned Bool). Either way the Winston
callback runs, so nothing propagates to the caller. -/
def logStep (parseDate : String → JsDate) (now : Int) (nodeEnv : Option String)
    (batchSize : Nat) (info : LogInfo) (st : TransportState) :
    TransportState × Bool :=
  match transformLogInfo parseDate now nodeEnv info with
  | .ok rec => (addToBatch batchSize rec st, false)
  | .error _ => (st, true)

/-- The per-record timestamp repair in `flush`'s re-validation:
`if (log.timestamp && isNaN(log.timestamp.getTime())) log.timestamp = new
Date()` — an Invalid Date is replaced by the current time. -/
def repairTs (now : Int) : JsDate → JsDate
  | .invalid => JsDate.valid now
  | d => d

/-- The `logsToFlush.map(...)` re-validation pass of `flush`, with the
in-place mutation of each record's timestamp made explicit: returns whether
the map ran to completion (`false` = a record with a missing level or
message threw) together with the state of the list afterwards — every
record up to the throwing one repaired, the rest untouched. -/
def revalidatePass (now : Int) : List InsertLog → Bool × List InsertLog
  | [] => (true, [])
  | log :: rest =>
    if log.level == "" || log.message == "" then (false, log :: rest)
    else
      let repaired : InsertLog := { log with timestamp := repairTs now log.timestamp }
      let tail := revalidatePass now rest
      (tail.1, repaired :: tail.2)

/-- Whether the store accepts the one-element insert of `log` under the
store behaviour `dbInsert`. -/
def singleOk (dbInsert : List InsertLog → Except String Unit)
    (log : InsertLog) : Bool :=
  match dbInsert [log] with
  | .ok _ => true
  | .error _ => false

/-- `SupabaseTransport.retryIndividualInserts`: one `insert([log])` per
record in order; each failure is caught and logged locally, never aborting
the loop. Returns the records that persisted and the ones that failed. -/
def retryIndividualInserts (dbInsert : List InsertLog → Except String Unit) :
    List InsertLog → List InsertLog × List InsertLog
  | [] => ([], [])
  | log :: rest =>
    let tail := retryIndividualInserts dbInsert rest
    match dbInsert [log] with
    | .ok _ => (log :: tail.1, tail.2)
    | .error _ => (tail.1, log :: tail.2)

/-- The outcome of one flush cycle: records persisted to the store, records
whose individual retry also failed, and how many aggregate `error` events
the transport emitted. The function returning a `FlushResult` (rather than
an `Except`) is the embedding of "flush never throws to its caller". -/
structure FlushResult where
  persisted : List InsertLog
  failed : List InsertLog
  errorEvents : Nat

/-- The executor part of `SupabaseTransport.flush`, applied to an
already-drained batch: re-validate (repairing timestamps), attempt the bulk
insert, and on any throw — a re-validation failure or a bulk
`StorageError` — fall back to per-record inserts over the batch as mutated
so far, then emit one aggregate error event. -/
def flushBatch (dbInsert : List InsertLog → Except String Unit) (now : Int)
    (batch : List InsertLog) : FlushResult :=
  if batch.isEmpty then { persisted := [], failed := [], errorEvents := 0 }
  else if (revalidatePass now batch).1 then
    match dbInsert (revalidatePass now batch).2 with
    | .ok _ =>
      { persisted := (revalidatePass now batch).2, failed := [], errorEvents := 0 }
    | .error _ =>
      { persisted := (retryIndividualInserts dbInsert (revalidatePass now batch).2).1,
        failed := (retryIndividualInserts dbInsert (revalidatePass now batch).2).2,
        errorEvents := 1 }
  else
    { persisted := (retryIndividualInserts dbInsert (revalidatePass now batch).2).1,
      failed := (retryIndividualInserts dbInsert (revalidatePass now batch).2).2,
      errorEvents := 1 }

/-- A stored row of the `logs` table, reduced to what the cleanup endpoint
inspects: an identifier (to tell rows apart) and the row's timestamp,
measured in days. -/
structure StoredLog where
  id : Nat
  timestamp : Int
deriving DecidableEq

/-- The `DELETE /api/logs?days=N` handler's effect on the stored rows:
`cutoffDate` is `now` minus `days` days, and the handler deletes every row
matching `gte(logsTable.timestamp, cutoffDate)`, so the rows that remain
are exactly those with `timestamp < cutoffDate`. -/
def deleteLogsHandler (now : Int) (days : Int) (store : List StoredLog) :
    List StoredLog :=
  let cutoffDate := now - days
  store.filter (fun r => !(decide (cutoffDate ≤ r.timestamp)))

/-- A concrete stand-in for `new Date(·)` used to instantiate theorems on
closed inputs: it parses nothing (every string yields Invalid Date). -/
def stubParseDate : String → JsDate := fun _ => JsDate.invalid

/-- A well-formed concrete record, used to instantiate theorems. -/
def recA : InsertLog :=
  { level := "info", message := "a", timestamp := JsDate.valid 0,
    environment := "development", service := "nextjs-app" }

/-- A second well-formed concrete record whose individual insert the stub
store below rejects. -/
def recBad : InsertLog :=
  { level := "info", message := "bad", timestamp := JsDate.valid 0,
    environment := "development", service := "nextjs-app" }

/-- A concrete store behaviour: every bulk (non-singleton) insert fails
with a `StorageError`, and the individual insert fails exactly for records
whose message is `"bad"`. -/
def dbStub : List InsertLog → Except String Unit := fun logs =>
  match logs with
  | [l] => if l.message == "bad" then .error "single" else .ok ()
  | _ => .error "bulk"

lemma transformLogInfo_ok_eq (pd : String → JsDate) (now : Int)
    (ne : Option String) (info : LogInfo) (rec : InsertLog)
    (hok : transformLogInfo pd now ne info = .ok rec) :
    rec = { level := info.level.getD ""
            message := info.message.getD ""
            timestamp := tsField pd now info.timestamp
            environment := orDefault info.environment (orDefault ne "development")
            service := orDefault info.service "nextjs-app"
            meta := metaField info.meta
            requestId := uuidField info.requestId
            userId := uuidField info.userId
            sessionId := keepIfLen info.sessionId 255
            ipAddress := keepIfTruthy info.ipAddress
            userAgent := keepIfTruthy info.userAgent
            method := keepIfLen info.method 10
            url := keepIfTruthy info.url
            statusCode := keepIfLen info.statusCode 5
            responseTime := keepIfLen info.responseTime 20
            stack := keepIfTruthy info.stack
            errorCode := keepIfLen info.errorCode 50
            version := keepIfLen info.version 50 } := by
  unfold transformLogInfo at hok
  split at hok
  · injection hok with h
    exact h.symm
  · simp at hok

lemma keepIfLen_within (s : String) (L : Nat) (h1 : s ≠ "") (h2 : s.length ≤ L) :
    keepIfLen (some s) L = some s := by
  simp [keepIfLen, h1, h2]

lemma keepIfLen_over (s : String) (L : Nat) (h : L < s.length) :
    keepIfLen (some s) L = none := by
  simp only [keepIfLen]
  rw [if_neg (fun hc => absurd hc.2 (by omega))]

lemma keepIfLen_emptystr (L : Nat) : keepIfLen (some "") L = none := by
  simp [keepIfLen]

lemma isValidUUID_ne_empty (s : String) (h : isValidUUID s = true) : s ≠ "" := by
  intro he
  subst he
  exact absurd h (by decide)

lemma uuidField_valid (s : String) (h : isValidUUID s = true) :
    uuidField (some s) = some s := by
  simp [uuidField, isValidUUID_ne_empty s h, h]

lemma uuidField_invalid (s : String) (h : isValidUUID s = false) :
    uuidField (some s) = none := by
  simp [uuidField, h]

lemma orDefault_ne_empty (a : Option String) (b : String) (hb : b ≠ "") :
    orDefault a b ≠ "" := by
  cases a with
  | none => simpa [orDefault] using hb
  | some s =>
    simp only [orDefault]
    split
    · exact hb
    · next hs => simpa using hs

lemma repairTs_isValid (now : Int) (d : JsDate) :
    (repairTs now d).isValid = true := by
  cases d <;> rfl

lemma revalidatePass_wf (now : Int) (batch : List InsertLog)
    (hwf : ∀ l ∈ batch, l.level ≠ "" ∧ l.message ≠ "") :
    (revalidatePass now batch).1 = true ∧
    (revalidatePass now batch).2.length = batch.length ∧
    ∀ l ∈ (revalidatePass now batch).2, l.timestamp.isValid = true := by
  induction batch with
  | nil => simp [revalidatePass]
  | cons log rest ih =>
    have hlog := hwf log (by simp)
    have hrest := ih (fun l hl => hwf l (by simp [hl]))
    have hguard : (log.level == "" || log.message == "") = false := by
      simp [hlog.1, hlog.2]
    simp only [revalidatePass, hguard, Bool.false_eq_true, if_false]
    refine ⟨hrest.1, by simp [hrest.2.1], ?_⟩
    intro l hl
    rcases List.mem_cons.mp hl with h | h
    · subst h
      exact repairTs_isValid now log.timestamp
    · exact hrest.2.2 l h

lemma retryIndividualInserts_eq_filter
    (db : List InsertLog → Except String Unit) (logs : List InsertLog) :
    retryIndividualInserts db logs =
      (logs.filter (fun l => singleOk db l),
       logs.filter (fun l => !singleOk db l)) := by
  induction logs with
  | nil => simp [retryIndividualInserts]
  | cons log rest ih =>
    simp only [retryIndividualInserts, ih]
    cases h : db [log] with
    | ok u => simp [List.filter, singleOk, h]
    | error e => simp [List.filter, singleOk, h]

lemma length_filter_partition {α : Type} (p : α → Bool) (l : List α) :
    (l.filter p).length + (l.filter (fun x => !p x)).length = l.length := by
  induction l with
  | nil => simp
  | cons x xs ih =>
    cases h : p x <;> simp [List.filter, h] <;> omega

lemma addToBatch_keeps_below (bs : Nat) (r : InsertLog) (st : TransportState)
    (h1 : 0 < bs) :
    (addToBatch bs r st).logBatch.length < bs := by
  simp only [addToBatch]
  split
  · simp [flushDrain, h1]
  · next hc =>
    simp only [List.length_append, List.length_cons, List.length_nil] at hc ⊢
    omega

lemma addToBatch_no_trigger (bs : Nat) (r : InsertLog) (st : TransportState)
    (h : st.logBatch.length + 1 < bs) :
    addToBatch bs r st = { st with logBatch := st.logBatch ++ [r] } := by
  simp only [addToBatch]
  rw [if_neg (by simp; omega)]

lemma addToBatch_trigger (bs : Nat) (r : InsertLog) (st : TransportState)
    (h : bs ≤ st.logBatch.length + 1) :
    addToBatch bs r st =
      { logBatch := [], flushCalls := st.flushCalls ++ [st.logBatch ++ [r]] } := by
  simp only [addToBatch]
  rw [if_pos (by simp; omega)]
  simp [flushDrain]

lemma isEmpty_false_of_ne_nil {α : Type} (l : List α) (h : l ≠ []) :
    l.isEmpty = false := by
  cases l with
  | nil => exact absurd rfl h
  | cons x xs => rfl

lemma keepIfLen_cases (v : Option String) (L : Nat) (s : String)
    (hv : v = some s) :
    (s ≠ "" → s.length ≤ L → keepIfLen v L = some s) ∧
    (L < s.length → keepIfLen v L = none) ∧
    (s = "" → keepIfLen v L = none) := by
  subst hv
  exact ⟨fun h1 h2 => keepIfLen_within s L h1 h2,
         fun h => keepIfLen_over s L h,
         fun h => by subst h; exact keepIfLen_emptystr L⟩

lemma transformLogInfo_ok_of_guard (pd : String → JsDate) (now : Int)
    (ne : Option String) (info : LogInfo)
    (hreq : (truthy info.level && truthy info.message) = true) :
    transformLogInfo pd now ne info =
      .ok { level := info.level.getD ""
            message := info.message.getD ""
            timestamp := tsField pd now info.timestamp
            environment := orDefault info.environment (orDefault ne "development")
            service := orDefault info.service "nextjs-app"
            meta := metaField info.meta
            requestId := uuidField info.requestId
            userId := uuidField info.userId
            sessionId := keepIfLen info.sessionId 255
            ipAddress := keepIfTruthy info.ipAddress
            userAgent := keepIfTruthy info.userAgent
            method := keepIfLen info.method 10
            url := keepIfTruthy info.url
            statusCode := keepIfLen info.statusCode 5
            responseTime := keepIfLen info.responseTime 20
            stack := keepIfTruthy info.stack
            errorCode := keepIfLen info.errorCode 50
            version := keepIfLen info.version 50 } := by
  unfold transformLogInfo
  rw [hreq]
  simp

lemma flushBatch_subset (dbIns : List InsertLog → Except String Unit)
    (now : Int) (batch : List InsertLog) (l : InsertLog)
    (hl : l ∈ (flushBatch dbIns now batch).persisted ++
          (flushBatch dbIns now batch).failed) :
    l ∈ (revalidatePass now batch).2 := by
  unfold flushBatch at hl
  split at hl
  · simp at hl
  · split at hl
    · split at hl
      · simp at hl
        exact hl
      · rw [retryIndividualInserts_eq_filter] at hl
        simp at hl
        rcases hl with h | h
        · exact h.1
        · exact h.1
    · rw [retryIndividualInserts_eq_filter] at hl
      simp at hl
      rcases hl with h | h
      · exact h.1
      · exact h.1

lemma foldl_addToBatch_below (bs : Nat) (rs : List InsertLog)
    (st : TransportState) (h1 : 0 < bs) (h2 : st.logBatch.length < bs) :
    (List.foldl (fun s r => addToBatch bs r s) st rs).logBatch.length < bs := by
  induction rs generalizing st with
  | nil => simpa using h2
  | cons r rest ih =>
    simp only [List.foldl_cons]
    exact ih (addToBatch bs r st) (addToBatch_keeps_below bs r st h1)

lemma foldl_addToBatch_fills (bs : Nat) (rs : List InsertLog)
    (st : TransportState) (hlen : st.logBatch.length + rs.length = bs)
    (hne : rs ≠ []) :
    List.foldl (fun s r => addToBatch bs r s) st rs =
      { logBatch := [], flushCalls := st.flushCalls ++ [st.logBatch ++ rs] } := by
  induction rs generalizing st with
  | nil => exact absurd rfl hne
  | cons r rest ih =>
    simp only [List.foldl_cons]
    cases rest with
    | nil =>
      rw [addToBatch_trigger bs r st (by simp at hlen; omega)]
      simp
    | cons r2 rest2 =>
      rw [addToBatch_no_trigger bs r st (by simp [List.length_cons] at hlen; omega)]
      rw [ih { st with logBatch := st.logBatch ++ [r] }
        (by simp [List.length_cons] at hlen ⊢; omega) (by simp)]
      simp

/-- C2: validation (`transformLogInfo`) raises exactly when `level` or
`message` is missing or empty — the sole hard failure — and in that case
`log` leaves the batch buffer untouched and emits an error event; for every
other input validation succeeds and produces a record. -/
theorem transform_required_fields (pd : String → JsDate) (now : Int)
    (ne : Option String) (bs : Nat) (info : LogInfo) (st : TransportState) :
    exceptOk (transformLogInfo pd now ne info) =
      (truthy info.level && truthy info.message)
    ∧ ((truthy info.level && truthy info.message) = false →
        (logStep pd now ne bs info st).1 = st ∧
        (logStep pd now ne bs info st).2 = true) := by
  cases h : truthy info.level && truthy info.message with
  | true =>
    refine ⟨?_, ?_⟩
    · rw [transformLogInfo_ok_of_guard pd now ne info h]
      rfl
    · intro hc
      exact absurd hc (by decide)
  | false =>
    have herr : transformLogInfo pd now ne info =
        .error "Log level and message are required" := by
      unfold transformLogInfo
      rw [h]
      simp
    exact ⟨by rw [herr]; rfl, fun _ => by simp [logStep, herr]⟩

/-- Witness for C2 at the concrete raw event with a missing level: the
buffer is unchanged and an error event is emitted. -/
theorem transform_required_fields_witness :
    (logStep stubParseDate 0 none 10 { message := some "m" }
      { logBatch := [], flushCalls := [] }).1 =
      { logBatch := [], flushCalls := [] } ∧
    (logStep stubParseDate 0 none 10 { message := some "m" }
      { logBatch := [], flushCalls := [] }).2 = true :=
  (transform_required_fields stubParseDate 0 none 10 { message := some "m" }
    { logBatch := [], flushCalls := [] }).2 (by decide)

/-- C3: adding exactly `batchSize` records to an empty buffer with no
elapsed timer time triggers exactly one flush, whose batch is those records
in insertion order, leaving the buffer empty; and the constructor's default
batch size is 10. -/
theorem addToBatch_fill_triggers_one_flush (bs : Nat) (rs : List InsertLog)
    (h1 : 0 < bs) (h2 : rs.length = bs) :
    List.foldl (fun s r => addToBatch bs r s)
      { logBatch := [], flushCalls := [] } rs =
      { logBatch := [], flushCalls := [rs] }
    ∧ resolveBatchSize none = 10 := by
  refine ⟨?_, rfl⟩
  have hne : rs ≠ [] := by
    intro he
    subst he
    simp at h2
    omega
  have h := foldl_addToBatch_fills bs rs { logBatch := [], flushCalls := [] }
    (by simpa using h2) hne
  simpa using h

/-- Witness for C3 with `batchSize = 2` and two concrete records. -/
theorem addToBatch_fill_triggers_one_flush_witness :
    List.foldl (fun s r => addToBatch 2 r s)
      { logBatch := [], flushCalls := [] } [recA, recBad] =
      { logBatch := [], flushCalls := [[recA, recBad]] }
    ∧ resolveBatchSize none = 10 :=
  addToBatch_fill_triggers_one_flush 2 [recA, recBad] (by decide) rfl

/-- C9: the cleanup endpoint is documented ("Removes logs older than
specified retention period", and its own log lines say "Cleaning up logs
older than N days") to delete old records, but it filters with
`gte(timestamp, cutoffDate)`: at `now = 100` days, `days = 30` (cutoff 70),
a store holding a 90-day-old record (timestamp 10) and a 1-day-old record
(timestamp 99) ends up keeping the old record and deleting the new one —
the exact opposite of the claim. -/
theorem deleteLogs_keeps_old_deletes_new :
    deleteLogsHandler 100 30
      [{ id := 1, timestamp := 10 }, { id := 2, timestamp := 99 }] =
      [{ id := 1, timestamp := 10 }] := rfl

/-- C10: the buffer-size invariant — with a positive `batchSize`, if the
buffer holds fewer than `batchSize` records then it still does after any
`addToBatch` (the filling add drains the whole buffer synchronously), and
consequently after any sequence of adds. -/
theorem buffer_stays_below_batchSize (bs : Nat) (r : InsertLog)
    (st : TransportState) (h1 : 0 < bs) (h2 : st.logBatch.length < bs) :
    (addToBatch bs r st).logBatch.length < bs
    ∧ ∀ rs : List InsertLog,
        (List.foldl (fun s x => addToBatch bs x s) st rs).logBatch.length < bs :=
  ⟨addToBatch_keeps_below bs r st h1,
   fun rs => foldl_addToBatch_below bs rs st h1 h2⟩

/-- Witness for C10: a concrete three-add run against `batchSize = 2`
starting from the empty buffer stays strictly below the threshold. -/
theorem buffer_stays_below_batchSize_witness :
    (List.foldl (fun s x => addToBatch 2 x s)
      { logBatch := [], flushCalls := [] } [recA, recBad, recA]).logBatch.length < 2 :=
  (buffer_stays_below_batchSize 2 recA { logBatch := [], flushCalls := [] }
    (by decide) (by decide)).2 [recA, recBad, recA]

/-- Counterexample to C4: the raw event carrying `sessionId = ""` — a value
of length 0, well within the 255-character limit — produces a record with
no `sessionId` at all (the guard `sessionId && ...` is falsy on the empty
string), so "values within the limit are stored unchanged" fails. -/
theorem length_limit_counterexample :
    (transformLogInfo stubParseDate 0 none
      { level := some "info", message := some "m", sessionId := some "" }).map
      (fun r => r.sessionId) = Except.ok none
    ∧ ("" : String).length ≤ 255
    ∧ (none : Option String) ≠ some "" :=
  ⟨rfl, by decide, by decide⟩

/-- C4 as amended: for each length-constrained field (sessionId 255,
method 10, statusCode 5, responseTime 20, errorCode 50, version 50
characters), a value exceeding its limit is omitted — not truncated — with
validation still succeeding, and a *non-empty* value within the limit is
stored unchanged; an empty-string value is omitted like an absent one. -/
theorem length_limited_fields_amended (pd : String → JsDate) (now : Int)
    (ne : Option String) (info : LogInfo) (rec : InsertLog)
    (hok : transformLogInfo pd now ne info = .ok rec) :
    (∀ s, info.sessionId = some s →
      (s ≠ "" → s.length ≤ 255 → rec.sessionId = some s) ∧
      (255 < s.length → rec.sessionId = none) ∧
      (s = "" → rec.sessionId = none))
    ∧ (∀ s, info.method = some s →
      (s ≠ "" → s.length ≤ 10 → rec.method = some s) ∧
      (10 < s.length → rec.method = none) ∧
      (s = "" → rec.method = none))
    ∧ (∀ s, info.statusCode = some s →
      (s ≠ "" → s.length ≤ 5 → rec.statusCode = some s) ∧
      (5 < s.length → rec.statusCode = none) ∧
      (s = "" → rec.statusCode = none))
    ∧ (∀ s, info.responseTime = some s →
      (s ≠ "" → s.length ≤ 20 → rec.responseTime = some s) ∧
      (20 < s.length → rec.responseTime = none) ∧
      (s = "" → rec.responseTime = none))
    ∧ (∀ s, info.errorCode = some s →
      (s ≠ "" → s.length ≤ 50 → rec.errorCode = some s) ∧
      (50 < s.length → rec.errorCode = none) ∧
      (s = "" → rec.errorCode = none))
    ∧ (∀ s, info.version = some s →
      (s ≠ "" → s.length ≤ 50 → rec.version = some s) ∧
      (50 < s.length → rec.version = none) ∧
      (s = "" → rec.version = none)) := by
  have he := transformLogInfo_ok_eq pd now ne info rec hok
  subst he
  exact ⟨fun s hs => keepIfLen_cases info.sessionId 255 s hs,
         fun s hs => keepIfLen_cases info.method 10 s hs,
         fun s hs => keepIfLen_cases info.statusCode 5 s hs,
         fun s hs => keepIfLen_cases info.responseTime 20 s hs,
         fun s hs => keepIfLen_cases info.errorCode 50 s hs,
         fun s hs => keepIfLen_cases info.version 50 s hs⟩

/-- Witness for the amended C4: a concrete `method = "GET"` (non-empty,
within 10 characters) is stored unchanged, and a concrete 11-character
method is omitted. -/
theorem length_limited_fields_amended_witness :
    ({ level := "info", message := "m", timestamp := JsDate.valid 0,
       environment := "development", service := "nextjs-app",
       method := some "GET" } : InsertLog).method = some "GET" :=
  ((length_limited_fields_amended stubParseDate 0 none
      { level := some "info", message := some "m", method := some "GET" }
      { level := "info", message := "m", timestamp := JsDate.valid 0,
        environment := "development", service := "nextjs-app",
        method := some "GET" }
      rfl).2.1 "GET" rfl).1 (by decide) (by decide)

/-- C5: `requestId` and `userId` are attached unchanged exactly when they
match the strict UUID pattern of `isValidUUID`; a non-matching identifier
is silently omitted, with validation still succeeding (the record `rec`
exists). -/
theorem uuid_fields_strictly_validated (pd : String → JsDate) (now : Int)
    (ne : Option String) (info : LogInfo) (rec : InsertLog)
    (hok : transformLogInfo pd now ne info = .ok rec) :
    (∀ s, info.requestId = some s →
      (isValidUUID s = false → rec.requestId = none) ∧
      (isValidUUID s = true → rec.requestId = some s))
    ∧ (∀ s, info.userId = some s →
      (isValidUUID s = false → rec.userId = none) ∧
      (isValidUUID s = true → rec.userId = some s)) := by
  have he := transformLogInfo_ok_eq pd now ne info rec hok
  subst he
  refine ⟨fun s hs => ⟨fun h => ?_, fun h => ?_⟩,
          fun s hs => ⟨fun h => ?_, fun h => ?_⟩⟩
  · show uuidField info.requestId = none
    rw [hs]
    exact uuidField_invalid s h
  · show uuidField info.requestId = some s
    rw [hs]
    exact uuidField_valid s h
  · show uuidField info.userId = none
    rw [hs]
    exact uuidField_invalid s h
  · show uuidField info.userId = some s
    rw [hs]
    exact uuidField_valid s h

/-- Witness for C5: the well-formed UUID `123e4567-e89b-12d3-a456-...` is
attached unchanged on a concrete raw event. -/
theorem uuid_fields_strictly_validated_witness :
    ({ level := "info", message := "m", timestamp := JsDate.valid 0,
       environment := "development", service := "nextjs-app",
       requestId := some "123e4567-e89b-12d3-a456-426614174000" } : InsertLog).requestId =
      some "123e4567-e89b-12d3-a456-426614174000" :=
  ((uuid_fields_strictly_validated stubParseDate 0 none
      { level := some "info", message := some "m",
        requestId := some "123e4567-e89b-12d3-a456-426614174000" }
      { level := "info", message := "m", timestamp := JsDate.valid 0,
        environment := "development", service := "nextjs-app",
        requestId := some "123e4567-e89b-12d3-a456-426614174000" }
      rfl).1 "123e4567-e89b-12d3-a456-426614174000" rfl).2 (by decide)

/-- Counterexample to C8: on a raw event that supplies no `service`, the
record's `service` is `"nextjs-app"` (from `service || "nextjs-app"` in
the transport and the `default('nextjs-app')` column), not the claimed
`"app"`. -/
theorem service_default_counterexample :
    (transformLogInfo stubParseDate 0 none
      { level := some "info", message := some "m" }).map
      (fun r => r.service) = Except.ok "nextjs-app"
    ∧ ("nextjs-app" : String) ≠ "app" :=
  ⟨rfl, by decide⟩

/-- C8 as amended: on a raw event that omits them, `environment` defaults
to `process.env.NODE_ENV` when that is set and non-empty and to
`"development"` otherwise, and `service` defaults to `"nextjs-app"`; both
fields are always present (non-empty) on every produced record. -/
theorem env_service_defaults_amended (pd : String → JsDate) (now : Int)
    (ne : Option String) (info : LogInfo) (rec : InsertLog)
    (hok : transformLogInfo pd now ne info = .ok rec) :
    (info.environment = none → ne = none → rec.environment = "development")
    ∧ (∀ s, info.environment = none → ne = some s → s ≠ "" →
        rec.environment = s)
    ∧ (info.service = none → rec.service = "nextjs-app")
    ∧ rec.environment ≠ "" ∧ rec.service ≠ "" := by
  have he := transformLogInfo_ok_eq pd now ne info rec hok
  subst he
  refine ⟨fun h1 h2 => ?_, fun s h1 h2 h3 => ?_, fun h1 => ?_, ?_, ?_⟩
  · show orDefault info.environment (orDefault ne "development") = "development"
    rw [h1, h2]
    rfl
  · show orDefault info.environment (orDefault ne "development") = s
    rw [h1, h2]
    simp [orDefault, h3]
  · show orDefault info.service "nextjs-app" = "nextjs-app"
    rw [h1]
    rfl
  · exact orDefault_ne_empty info.environment (orDefault ne "development")
      (orDefault_ne_empty ne "development" (by decide))
  · exact orDefault_ne_empty info.service "nextjs-app" (by decide)

/-- Witness for the amended C8: with `NODE_ENV` unset and both fields
omitted, the concrete record carries `environment = "development"` and
`service = "nextjs-app"`. -/
theorem env_service_defaults_amended_witness :
    ({ level := "info", message := "m", timestamp := JsDate.valid 0,
       environment := "development", service := "nextjs-app" } : InsertLog).environment =
      "development"
    ∧ ({ level := "info", message := "m", timestamp := JsDate.valid 0,
         environment := "development", service := "nextjs-app" } : InsertLog).service =
      "nextjs-app" :=
  let h := env_service_defaults_amended stubParseDate 0 none
    { level := some "info", message := some "m" }
    { level := "info", message := "m", timestamp := JsDate.valid 0,
      environment := "development", service := "nextjs-app" } rfl
  ⟨h.1 rfl rfl, h.2.2.1 rfl⟩

/-- C6: for a raw event with non-empty metadata (and valid level/message),
the validator attempts the JSON round trip of the metadata object; if the
round trip throws, the metadata column is omitted while the record is still
produced, and if it succeeds the record carries the round-tripped value. -/
theorem metadata_roundtrip_or_omitted (pd : String → JsDate) (now : Int)
    (ne : Option String) (info : LogInfo)
    (hreq : (truthy info.level && truthy info.message) = true)
    (hne : info.meta ≠ []) :
    (jsonRoundTrip (.jobj info.meta) = .error () →
      ∃ rec, transformLogInfo pd now ne info = .ok rec ∧ rec.meta = none)
    ∧ (∀ m, jsonRoundTrip (.jobj info.meta) = .ok m →
      ∃ rec, transformLogInfo pd now ne info = .ok rec ∧ rec.meta = some m) := by
  have hok := transformLogInfo_ok_of_guard pd now ne info hreq
  have hie := isEmpty_false_of_ne_nil info.meta hne
  constructor
  · intro hrt
    refine ⟨_, hok, ?_⟩
    show metaField info.meta = none
    simp [metaField, hie, hrt]
  · intro m hrt
    refine ⟨_, hok, ?_⟩
    show metaField info.meta = some m
    simp [metaField, hie, hrt]

/-- Witness for C6: metadata holding a BigInt makes the round trip throw,
and the concrete record is produced with no metadata. -/
theorem metadata_roundtrip_or_omitted_witness :
    (transformLogInfo stubParseDate 0 none
      { level := some "info", message := some "m",
        meta := [("k", JSValue.jbigint 1)] }).map (fun r => r.meta) =
      Except.ok none := by
  obtain ⟨rec, hok, hm⟩ := (metadata_roundtrip_or_omitted stubParseDate 0 none
    { level := some "info", message := some "m",
      meta := [("k", JSValue.jbigint 1)] }
    (by decide) (by simp)).1 rfl
  rw [hok]
  simp [Except.map, hm]

/-- C7: a record built without a caller-supplied timestamp carries the
record-creation time; the flush re-validation repairs any Invalid Date to
"now" rather than rejecting the record; and no record the flush hands to
the store — bulk path or individual-retry path — carries an invalid
timestamp. -/
theorem timestamp_always_valid (pd : String → JsDate) (now : Int)
    (ne : Option String) (info : LogInfo) (rec : InsertLog)
    (hok : transformLogInfo pd now ne info = .ok rec)
    (dbIns : List InsertLog → Except String Unit) (now2 : Int)
    (batch : List InsertLog)
    (hwf : ∀ l ∈ batch, l.level ≠ "" ∧ l.message ≠ "") :
    (info.timestamp = none → rec.timestamp = JsDate.valid now)
    ∧ (∀ l ∈ (revalidatePass now2 batch).2, l.timestamp.isValid = true)
    ∧ (∀ l, l ∈ (flushBatch dbIns now2 batch).persisted ++
            (flushBatch dbIns now2 batch).failed →
        l.timestamp.isValid = true) := by
  have he := transformLogInfo_ok_eq pd now ne info rec hok
  have hpass := revalidatePass_wf now2 batch hwf
  refine ⟨?_, hpass.2.2, ?_⟩
  · intro ht
    rw [he]
    show tsField pd now info.timestamp = JsDate.valid now
    rw [ht]
    rfl
  · intro l hl
    exact hpass.2.2 l (flushBatch_subset dbIns now2 batch l hl)

/-- Witness for C7: a concrete event with no timestamp yields a record
stamped with the creation time 5. -/
theorem timestamp_always_valid_witness :
    ({ level := "info", message := "m", timestamp := JsDate.valid 5,
       environment := "development", service := "nextjs-app" } : InsertLog).timestamp =
      JsDate.valid 5 :=
  (timestamp_always_valid stubParseDate 5 none
    { level := some "info", message := some "m" }
    { level := "info", message := "m", timestamp := JsDate.valid 5,
      environment := "development", service := "nextjs-app" }
    rfl dbStub 0 [recA] (by decide)).1 rfl

/-- C1: when the bulk insert of a non-empty batch of well-formed records
fails with a `StorageError` — whichever records then fail or succeed
individually — the flush executor catches it, retries every record of the
batch individually (the persisted and failed lists partition the whole
batch, so each individual failure is caught without aborting the loop),
emits exactly one aggregate error event, and — the function being total
into `FlushResult` — never throws to its caller; in particular, when the
individual insert succeeds for all but one record, exactly N-1 records are
persisted and exactly 1 is reported failed. -/
theorem flush_partial_failure_isolation
    (dbIns : List InsertLog → Except String Unit) (now : Int)
    (batch : List InsertLog) (e : String)
    (hne : batch ≠ [])
    (hwf : ∀ l ∈ batch, l.level ≠ "" ∧ l.message ≠ "")
    (hbulk : dbIns (revalidatePass now batch).2 = .error e) :
    (flushBatch dbIns now batch).errorEvents = 1
    ∧ (flushBatch dbIns now batch).persisted =
        (revalidatePass now batch).2.filter (fun l => singleOk dbIns l)
    ∧ (flushBatch dbIns now batch).failed =
        (revalidatePass now batch).2.filter (fun l => !singleOk dbIns l)
    ∧ (flushBatch dbIns now batch).persisted.length +
        (flushBatch dbIns now batch).failed.length = batch.length
    ∧ (((revalidatePass now batch).2.filter
          (fun l => !singleOk dbIns l)).length = 1 →
        (flushBatch dbIns now batch).failed.length = 1
        ∧ (flushBatch dbIns now batch).persisted.length = batch.length - 1) := by
  have hpass := revalidatePass_wf now batch hwf
  have hbe : batch.isEmpty = false := isEmpty_false_of_ne_nil batch hne
  have h21 := hpass.2.1
  have hlen := length_filter_partition (fun l => singleOk dbIns l)
    (revalidatePass now batch).2
  have hfb : flushBatch dbIns now batch =
      { persisted := (revalidatePass now batch).2.filter
          (fun l => singleOk dbIns l),
        failed := (revalidatePass now batch).2.filter
          (fun l => !singleOk dbIns l),
        errorEvents := 1 } := by
    simp [flushBatch, hbe, hpass.1, hbulk, retryIndividualInserts_eq_filter]
  have hP : (flushBatch dbIns now batch).persisted =
      (revalidatePass now batch).2.filter (fun l => singleOk dbIns l) := by
    rw [hfb]
  have hF : (flushBatch dbIns now batch).failed =
      (revalidatePass now batch).2.filter (fun l => !singleOk dbIns l) := by
    rw [hfb]
  have hE : (flushBatch dbIns now batch).errorEvents = 1 := by
    rw [hfb]
  refine ⟨hE, hP, hF, ?_, fun hone => ⟨?_, ?_⟩⟩
  · rw [hP, hF]
    omega
  · rw [hF]
    exact hone
  · rw [hP]
    omega

/-- Witness for C1: `dbStub` fails every bulk insert and the individual
insert of `recBad` only; flushing `[recA, recBad]` persists one record,
reports one failed, and emits one error event. -/
theorem flush_partial_failure_isolation_witness :
    (flushBatch dbStub 0 [recA, recBad]).errorEvents = 1
    ∧ (flushBatch dbStub 0 [recA, recBad]).persisted =
        (revalidatePass 0 [recA, recBad]).2.filter (fun l => singleOk dbStub l)
    ∧ (flushBatch dbStub 0 [recA, recBad]).persisted.length +
        (flushBatch dbStub 0 [recA, recBad]).failed.length =
        ([recA, recBad] : List InsertLog).length
    ∧ (flushBatch dbStub 0 [recA, recBad]).failed.length = 1
    ∧ (flushBatch dbStub 0 [recA, recBad]).persisted.length =
        ([recA, recBad] : List InsertLog).length - 1 :=
  let h := flush_partial_failure_isolation dbStub 0 [recA, recBad] "bulk"
    (by simp) (by decide) rfl
  ⟨h.1, h.2.1, h.2.2.2.1, (h.2.2.2.2 rfl).1, (h.2.2.2.2 rfl).2⟩
